import Mathlib

/-!
Verification development for the binder-designer batch PISA pipeline.

The Python sources are shallowly embedded:
* Python `int(...)` / `float(...)` string conversions become `pyInt?` /
  `pyFloat?` (`Option`-valued; `none` models the raised `ValueError`).
  Floating point numbers are modelled by `ℚ` (the inputs of interest are
  short decimal literals, which floats represent with enough fidelity for
  every comparison the code performs); `math.log10` is modelled by
  `Real.logb 10`.
* The PISA interfaces XML document is modelled by `ReportXML`: the root
  holds repeated `interface` elements, each with `molecule` children
  (carrying `chain_id` and nested `residue` elements) and optional
  bond sections and energetics fields.  `Option String` fields model
  `findtext`: `none` is an absent element, `some s` an element with text
  `s` (an element with empty text is `some ""`).
* `Except String` models a Python exception escaping a function; callers
  that wrap a call in `try/except` are embedded by matching on the result.
-/

/-- The ASCII whitespace characters removed by Python `str.strip()` (and
accepted around numeric literals by `int`/`float`). -/
def isPySpace (c : Char) : Bool :=
  c = ' ' || c = '\t' || c = '\n' || c = '\r' || c = '\x0b' || c = '\x0c'

/-- Remove leading and trailing whitespace from a character list. -/
def trimChars (l : List Char) : List Char :=
  ((l.dropWhile isPySpace).reverse.dropWhile isPySpace).reverse

/-- Model of Python `str.strip()`. -/
def pyStrip (s : String) : String := ⟨trimChars s.data⟩

/-- Lower-case an ASCII character (Python `str.lower()` on the inputs of
interest). -/
def lowerChar (c : Char) : Char :=
  if 65 ≤ c.toNat ∧ c.toNat ≤ 90 then Char.ofNat (c.toNat + 32) else c

/-- Upper-case an ASCII character. -/
def upperChar (c : Char) : Char :=
  if 97 ≤ c.toNat ∧ c.toNat ≤ 122 then Char.ofNat (c.toNat - 32) else c

/-- Model of Python `str.upper()`. -/
def pyUpper (s : String) : String := ⟨s.data.map upperChar⟩

/-- Numeric value of an all-digit character list. -/
def digitsVal (l : List Char) : Nat :=
  l.foldl (fun n c => 10 * n + (c.toNat - 48)) 0

/-- True when `l` is a nonempty run of decimal digits. -/
def isDigits (l : List Char) : Bool :=
  !l.isEmpty && l.all (·.isDigit)

/-- Split a character list at every occurrence of `sep`. -/
def splitOnChar (sep : Char) : List Char → List (List Char)
  | [] => [[]]
  | c :: cs =>
    let r := splitOnChar sep cs
    if c = sep then [] :: r
    else
      match r with
      | h :: t => (c :: h) :: t
      | [] => [[c]]

/-- Unsigned decimal digit run with optional sign, for `pyInt?` and float
exponents. -/
def signedDigits? (l : List Char) : Option Int :=
  match l with
  | '-' :: ds => if isDigits ds then some (-(digitsVal ds : Int)) else none
  | '+' :: ds => if isDigits ds then some (digitsVal ds : Int) else none
  | ds => if isDigits ds then some (digitsVal ds : Int) else none

/-- Model of Python `int(s)` on decimal text: surrounding whitespace and an
optional sign are accepted, anything else yields `none` (a `ValueError`). -/
def pyInt? (s : String) : Option Int :=
  signedDigits? (trimChars s.data)

/-- Unsigned decimal mantissa accepted by Python `float`: `"12"`, `"12.5"`,
`"12."` or `".5"`. -/
def pyFrac? (t : List Char) : Option ℚ :=
  match splitOnChar '.' t with
  | [a] => if isDigits a then some (digitsVal a : ℚ) else none
  | [a, b] =>
    if (!a.isEmpty || !b.isEmpty) && a.all (·.isDigit) && b.all (·.isDigit) then
      some ((digitsVal a : ℚ) + (digitsVal b : ℚ) / (10 ^ b.length : ℚ))
    else none
  | _ => none

/-- Unsigned float literal with optional exponent. -/
def pyAbsFloat? (u : List Char) : Option ℚ :=
  match splitOnChar 'e' (u.map lowerChar) with
  | [m] => pyFrac? m
  | [m, ex] =>
    match pyFrac? m, signedDigits? ex with
    | some q, some e => some (q * (10 : ℚ) ^ e)
    | _, _ => none
  | _ => none

/-- Model of Python `float(s)` on decimal/scientific text, as exact rational
value (`none` models the raised `ValueError`). -/
def pyFloat? (s : String) : Option ℚ :=
  match trimChars s.data with
  | '-' :: u => (pyAbsFloat? u).map (fun q => -q)
  | '+' :: u => pyAbsFloat? u
  | u => pyAbsFloat? u

/-- Python `int(x)` on a float: truncation toward zero. -/
def pyTrunc (q : ℚ) : Int :=
  if 0 ≤ q then ⌊q⌋ else ⌈q⌉

/-- `Except`-valued Python `int(s)`: `error` is the escaping `ValueError`. -/
def pyIntE (s : String) : Except String Int :=
  match pyInt? s with
  | some n => Except.ok n
  | none => Except.error ("invalid literal for int: " ++ s)

/-- `Except`-valued Python `float(s)`. -/
def pyFloatE (s : String) : Except String ℚ :=
  match pyFloat? s with
  | some q => Except.ok q
  | none => Except.error ("could not convert string to float: " ++ s)

/-- `ElementTree.findtext(tag, default=d)`: text of the element when present,
`d` otherwise. -/
def textD (o : Option String) (d : String) : String :=
  match o with
  | some s => s
  | none => d

/-- The idiom `findtext(tag, default="0") or "0"`: an empty string is also
replaced by `"0"`. -/
def orZero (s : String) : String :=
  if s = "" then "0" else s

/-- A `residue` element of the PISA XML report. -/
structure ResidueXML where
  name : Option String
  seq_num : Option String
  asa : Option String
  bsa : Option String
  solv_en : Option String
deriving DecidableEq

/-- A `bond` element (of an `h-bonds` or `salt-bridges` section). -/
structure BondXML where
  chain1 : Option String
  chain2 : Option String
  seqnum1 : Option String
  seqnum2 : Option String
deriving DecidableEq

/-- A `molecule` element with its `chain_id` and nested `residue` elements. -/
structure MoleculeXML where
  chain_id : Option String
  residues : List ResidueXML
deriving DecidableEq

/-- An `interface` element: participating molecules, optional bond sections
(`none` when the section element is absent) and optional energetics fields. -/
structure InterfaceXML where
  molecules : List MoleculeXML
  hbonds : Option (List BondXML)
  saltBridges : Option (List BondXML)
  int_area : Option String
  stab_en : Option String
  int_solv_en : Option String
  overlap : Option String
  pvalue : Option String
deriving DecidableEq

/-- A parsed (well-formed) PISA interfaces report: the repeated `interface`
elements of the root.  `root.findall(".//molecule")` is the concatenation of
the interface molecule lists, in document order. -/
structure ReportXML where
  interfaces : List InterfaceXML
deriving DecidableEq

/-- All molecules of the document, as found by `root.findall(".//molecule")`. -/
def allMolecules (rep : ReportXML) : List MoleculeXML :=
  rep.interfaces.flatMap (·.molecules)

/-- A parsed residue record, `pisa_final.py` line 183:
`(current_chain_id, res_name, seq_num, asa, bsa, solv_en)`. -/
structure Residue where
  chain_id : String
  name : String
  seq_num : Int
  asa : ℚ
  bsa : ℚ
  solv_en : ℚ
deriving DecidableEq

/-- Trimmed text of the `chain-1` child of a bond, as read on
`pisa_final.py` line 189: `(bond.findtext("chain-1", default="") or "").strip()`. -/
def bondChain1 (b : BondXML) : String := pyStrip (textD b.chain1 "")

/-- Trimmed text of the `chain-2` child of a bond (`pisa_final.py` line 190). -/
def bondChain2 (b : BondXML) : String := pyStrip (textD b.chain2 "")

/-- Parse of `seqnum-1`, `pisa_final.py` line 192:
`int(bond.findtext("seqnum-1", default="0") or "0")`. -/
def bondSeq1? (b : BondXML) : Option Int := pyInt? (orZero (textD b.seqnum1 "0"))

/-- Parse of `seqnum-2` (`pisa_final.py` line 193). -/
def bondSeq2? (b : BondXML) : Option Int := pyInt? (orZero (textD b.seqnum2 "0"))

/-- Contribution of one bond to a bond counter, `pisa_final.py` lines
189-197 (and identically 202-210): when either trimmed chain matches the
target, the two sequence numbers are converted with `int` (a failure
escapes as `ValueError`) and the counter is incremented once per endpoint
that is on the target chain with sequence number `≥ residue_counter`. -/
def countBondFinal (chain_id : String) (residue_counter : Int) (b : BondXML) :
    Except String Nat :=
  let c1 := bondChain1 b
  let c2 := bondChain2 b
  if c1 = chain_id ∨ c2 = chain_id then do
    let s1 ← pyIntE (orZero (textD b.seqnum1 "0"))
    let s2 ← pyIntE (orZero (textD b.seqnum2 "0"))
    let n : Nat := 0
    let n := if c1 = chain_id ∧ residue_counter ≤ s1 then n + 1 else n
    let n := if c2 = chain_id ∧ residue_counter ≤ s2 then n + 1 else n
    pure n
  else
    pure 0

/-- Accumulate `countBondFinal` over the bonds of one section, starting from
the running counter `n` (the `+=` loop of `pisa_final.py`). -/
def countBondsFinal (chain_id : String) (residue_counter : Int)
    (bs : List BondXML) (n : Nat) : Except String Nat :=
  bs.foldlM (fun acc b => do
    let k ← countBondFinal chain_id residue_counter b
    pure (acc + k)) n

/-- Parse of one `residue` element, `pisa_final.py` lines 178-183.  Numeric
fields default to `0` when the element is absent or empty; an unparsable
text escapes as an exception. -/
def parseResidueFinal (cid : String) (r : ResidueXML) : Except String Residue := do
  let name := pyStrip (textD r.name "")
  let seq ← pyIntE (orZero (textD r.seq_num "0"))
  let asa ← pyFloatE (orZero (textD r.asa "0"))
  let bsa ← pyFloatE (orZero (textD r.bsa "0"))
  let solv ← pyFloatE (orZero (textD r.solv_en "0"))
  pure ⟨cid, name, seq, asa, bsa, solv⟩

/-- The molecule/residue loop of `pisa_final.py` lines 175-183, appending the
parsed residues of every molecule of the document. -/
def parseResiduesFinal (ms : List MoleculeXML) : Except String (List Residue) :=
  ms.foldlM (fun acc m => do
    let cid := pyStrip (textD m.chain_id "")
    m.residues.foldlM (fun acc2 r => do
      let res ← parseResidueFinal cid r
      pure (acc2 ++ [res])) acc) []

/-- The interface/bond loop of `pisa_final.py` lines 185-210: the two
counters are threaded through the interfaces; an absent `h-bonds` or
`salt-bridges` section contributes nothing. -/
def countAllBondsFinal (rep : ReportXML) (chain_id : String)
    (residue_counter : Int) : Except String (Nat × Nat) :=
  rep.interfaces.foldlM (fun p i => do
    let hc ← match i.hbonds with
      | some bs => countBondsFinal chain_id residue_counter bs p.1
      | none => pure p.1
    let sc ← match i.saltBridges with
      | some bs => countBondsFinal chain_id residue_counter bs p.2
      | none => pure p.2
    pure (hc, sc)) ((0 : Nat), (0 : Nat))

/-- `parse_xml_residues_and_bonds` of `pisa_final.py` (lines 164-212) on an
already well-formed document.  (The `ET.parse` failure branch, which returns
`([], 0, 0)`, is modelled at the call site by the job-world constructor for
a malformed report.)  An entry-level numeric conversion failure escapes as
an exception, exactly as the untried `int`/`float` calls do in the source. -/
def parse_xml_residues_and_bonds (rep : ReportXML) (chain_id : String)
    (residue_counter : Int) : Except String (List Residue × Nat × Nat) := do
  let residues ← parseResiduesFinal (allMolecules rep)
  let counts ← countAllBondsFinal rep chain_id residue_counter
  pure (residues, counts.1, counts.2)

/-- `calculate_total_bsa_score` of `pisa_final.py` lines 214-220: sum of
`int(pct / 10)` over target-chain residues at or above the floor with
nonzero ASA, where `pct = bsa / asa * 100`. -/
def calculate_total_bsa_score (residues : List Residue) (chain_id : String)
    (residue_counter : Int) : Int :=
  residues.foldl (fun acc r =>
    if r.chain_id = chain_id ∧ residue_counter ≤ r.seq_num ∧ r.asa ≠ 0 then
      acc + pyTrunc (r.bsa / r.asa * 100 / 10)
    else acc) 0

/-- The hydrophobic residue class, `pisa_final.py` line 30. -/
def HYDROPHOBIC : List String :=
  ["ALA", "VAL", "LEU", "ILE", "MET", "PHE", "TRP", "PRO", "GLY"]

/-- The polar-uncharged residue class, `pisa_final.py` line 31. -/
def POLAR_UNCHARGED : List String :=
  ["SER", "THR", "ASN", "GLN", "TYR", "CYS"]

/-- The charged residue class, `pisa_final.py` line 32. -/
def CHARGED : List String :=
  ["ASP", "GLU", "LYS", "ARG", "HIS"]

/-- `compute_interface_residue_stats` of `pisa_final.py` lines 222-240:
count of target-chain residues with positive BSA at or above the floor, and
the polar and hydrophobic percentages (`none` models the blank strings
returned when no residue qualifies; the `"%.2f"` formatting of the source
is presentation only and is not modelled). -/
def compute_interface_residue_stats (residues : List Residue)
    (chain_id : String) (residue_counter : Int) : Nat × Option ℚ × Option ℚ :=
  let iface := residues.filterMap fun r =>
    if r.chain_id = chain_id ∧ residue_counter ≤ r.seq_num ∧ 0 < r.bsa then
      some (pyUpper (pyStrip r.name))
    else none
  let n := iface.length
  if n = 0 then (0, none, none)
  else
    let hyd := (iface.filter fun s => s ∈ HYDROPHOBIC).length
    let polar := (iface.filter fun s => s ∈ POLAR_UNCHARGED ∨ s ∈ CHARGED).length
    (n, some (100 * (polar : ℚ) / (n : ℚ)), some (100 * (hyd : ℚ) / (n : ℚ)))

/-- `_float_or_none` of `pisa_final.py` lines 242-251: `None` in, blank in or
unparsable in give `none`. -/
def float_or_none (x : Option String) : Option ℚ :=
  match x with
  | none => none
  | some s => if pyStrip s = "" then none else pyFloat? (pyStrip s)

/-- Participating chains of an interface, `pisa_final.py` lines 306-310:
trimmed `chain_id` texts of the interface's `molecule` children, empty ones
dropped.  (The source collects them into a set; only membership of the
target chain is ever consulted, so a list is an equivalent model.) -/
def chainsOfInterface (i : InterfaceXML) : List String :=
  i.molecules.filterMap fun m =>
    let c := pyStrip (textD m.chain_id "")
    if c = "" then none else some c

/-- Trimmed `overlap` text of an interface, `pisa_final.py` line 324:
`(interface.findtext("overlap") or "").strip()`. -/
def overlapOfInterface (i : InterfaceXML) : String :=
  pyStrip (textD i.overlap "")

/-- Accumulator of the interface loop of
`parse_interface_energetics_and_area` (`pisa_final.py` lines 296-303). -/
structure EnAcc where
  count : Nat
  total_area : ℚ
  have_area : Bool
  best_stab : Option ℚ
  best_solv : Option ℚ
  best_overlap : Option String
  best_pvalue : Option ℚ
deriving DecidableEq

/-- Initial accumulator: `iface_count = 0`, `total_area = 0.0`,
`have_area = False`, all best-interface fields `None`. -/
def enInit : EnAcc := ⟨0, 0, false, none, none, none, none⟩

/-- One iteration of the interface loop, `pisa_final.py` lines 305-333:
skip interfaces not involving the target chain; count the interface; add a
parseable `int_area`; adopt the interface as best when its `stab_en` parses
and is strictly below the current best (ties therefore keep the earlier
interface), copying `int_solv_en`, `overlap` and `pvalue` alongside. -/
def enStep (chain_id : String) (acc : EnAcc) (i : InterfaceXML) : EnAcc :=
  if chain_id ∈ chainsOfInterface i then
    let acc1 := { acc with count := acc.count + 1 }
    let acc2 :=
      match float_or_none i.int_area with
      | some a => { acc1 with total_area := acc1.total_area + a, have_area := true }
      | none => acc1
    match float_or_none i.stab_en with
    | some s =>
      match acc2.best_stab with
      | none =>
        { acc2 with best_stab := some s, best_solv := float_or_none i.int_solv_en,
                    best_overlap := some (overlapOfInterface i),
                    best_pvalue := float_or_none i.pvalue }
      | some b =>
        if s < b then
          { acc2 with best_stab := some s, best_solv := float_or_none i.int_solv_en,
                      best_overlap := some (overlapOfInterface i),
                      best_pvalue := float_or_none i.pvalue }
        else acc2
    | none => acc2
  else acc

/-- The interface loop of `parse_interface_energetics_and_area` run over the
whole document. -/
def enCore (rep : ReportXML) (chain_id : String) : EnAcc :=
  rep.interfaces.foldl (enStep chain_id) enInit

/-- Semantic result of `parse_interface_energetics_and_area` before the
specificity computation, `pisa_final.py` lines 335-338 and 349: `none`
models the blank strings of the source (`"%.2f"`/`"%.3f"` formatting is
presentation only and not modelled), and `pvalue` is the retained
`best_pvalue` that line 341 feeds into the specificity computation. -/
structure EnResult where
  count : Nat
  area : Option ℚ
  dg : Option ℚ
  solv : Option ℚ
  overlap : String
  pvalue : Option ℚ
deriving DecidableEq

/-- Assemble the outputs from the loop accumulator (`pisa_final.py` lines
335-338): the area is blank unless some qualifying interface had a
parseable `int_area`; `overlap_str` is blank when no best interface was
ever adopted (the `best_overlap not in (None, "")` test collapses `None`
and the empty string to blank). -/
def en_result (rep : ReportXML) (chain_id : String) : EnResult :=
  let a := enCore rep chain_id
  ⟨a.count,
   if a.have_area then some a.total_area else none,
   a.best_stab,
   a.best_solv,
   (a.best_overlap).getD "",
   a.best_pvalue⟩

/-- The specificity computation of `pisa_final.py` lines 340-347:
`-log10(pvalue)` when the p-value is present and strictly positive,
blank otherwise.  Over the reals the `math.isfinite` guard of line 344 is
always satisfied for a positive rational input, so it introduces no extra
case. -/
noncomputable def specificity_of (p : Option ℚ) : Option ℝ :=
  match p with
  | none => none
  | some q => if 0 < q then some (-(Real.logb 10 (q : ℝ))) else none

/-- `parse_interface_energetics_and_area` of `pisa_final.py` (lines
268-349) on a well-formed document: the 6-tuple of line 349. -/
noncomputable def parse_interface_energetics_and_area (rep : ReportXML)
    (chain_id : String) : Nat × Option ℚ × Option ℚ × Option ℚ × String × Option ℝ :=
  let e := en_result rep chain_id
  (e.count, e.area, e.dg, e.solv, e.overlap, specificity_of e.pvalue)

/-- Chains found by `_assert_chain_present` (`pisa_final.py` lines 146-162):
every nonempty trimmed `chain_id` text over all molecules of the document. -/
def chainsOfReport (rep : ReportXML) : List String :=
  (allMolecules rep).filterMap fun m =>
    let c := pyStrip (textD m.chain_id "")
    if c = "" then none else some c

/-- The external-world outcome of the three analyzer subprocess invocations
and the report emission for one job (`pisa_final.py` lines 354-367). -/
inductive JobWorld where
  /-- Some subprocess exited non-zero (`CalledProcessError`), carrying the
  structure identifier and the exception text. -/
  | subprocessFail (base : String) (msg : String)
  /-- The emitted report is not well-formed XML, so `_assert_chain_present`
  raised (`pisa_final.py` line 150), carrying the exception text. -/
  | xmlMalformed (base : String) (msg : String)
  /-- The subprocesses succeeded and the report parsed to `rep`. -/
  | xmlOk (base : String) (rep : ReportXML)
deriving DecidableEq

/-- Structure identifier of a job (`os.path.splitext(pdb_file)[0]`). -/
def jobBase (w : JobWorld) : String :=
  match w with
  | .subprocessFail base _ => base
  | .xmlMalformed base _ => base
  | .xmlOk base _ => base

/-- One row of `contacts.csv` as written by `pisa_final.py` lines 440-449,
in header order (`Option` fields are blank when `none`; numeric formatting
is presentation only). -/
structure FinalRow where
  binder : String
  bsa_score : Int
  salt_bridges : Nat
  h_bonds : Nat
  interface_count : Nat
  interface_area_A2 : Option ℚ
  dg_dissociation : Option ℚ
  solvation_energy_gain : Option ℚ
  overlap : String
  specificity : Option ℝ
  interface_residue_count : Nat
  pct_polar : Option ℚ
  pct_hydrophobic : Option ℚ

/-- The zero/blank metrics row returned on a caught per-job failure,
`pisa_final.py` line 370:
`(base, 0, 0, 0, 0, "", "", "", "", "", 0, "", "")`. -/
def zeroRow (base : String) : FinalRow :=
  ⟨base, 0, 0, 0, 0, none, none, none, "", none, 0, none, none⟩

/-- `process_pdb_file` of `pisa_final.py` (lines 351-379).  The `try` block
covers the subprocess invocations and `_assert_chain_present`, so those
three failure modes return the zero row together with the logged reason
(`logging.error` of line 369).  The metric derivation of lines 372-375 runs
outside the `try`: an exception escaping `parse_xml_residues_and_bonds`
(an entry-level `ValueError`) propagates out, modelled by `Except.error`. -/
noncomputable def process_pdb_file (w : JobWorld) (chain_id : String)
    (residue_counter : Int) : Except String (Option String × FinalRow) :=
  match w with
  | .subprocessFail base msg =>
    .ok (some ("Failed processing " ++ base ++ ": " ++ msg), zeroRow base)
  | .xmlMalformed base msg =>
    .ok (some ("Failed processing " ++ base ++ ": " ++ msg), zeroRow base)
  | .xmlOk base rep =>
    if chain_id ∈ chainsOfReport rep then
      match parse_xml_residues_and_bonds rep chain_id residue_counter with
      | .error e => .error e
      | .ok (residues, h_bonds_count, salt_bridges_count) =>
        let bsa_score := calculate_total_bsa_score residues chain_id residue_counter
        let stats := compute_interface_residue_stats residues chain_id residue_counter
        let e := parse_interface_energetics_and_area rep chain_id
        .ok (none,
          ⟨base, bsa_score, salt_bridges_count, h_bonds_count,
           e.1, e.2.1, e.2.2.1, e.2.2.2.1, e.2.2.2.2.1, e.2.2.2.2.2,
           stats.1, stats.2.1, stats.2.2⟩)
    else
      .ok (some ("Failed processing " ++ base ++ ": Requested chain '" ++ chain_id
                 ++ "' not found"), zeroRow base)

/-- Whether a job world is one of the three per-job failure modes for the
target chain: subprocess failure, malformed report, or requested chain
absent from the report. -/
def isFailureWorld (chain_id : String) (w : JobWorld) : Prop :=
  match w with
  | .subprocessFail _ _ => True
  | .xmlMalformed _ _ => True
  | .xmlOk _ rep => chain_id ∉ chainsOfReport rep

/-- The reason logged for a failed job (mirrors the messages produced by
`process_pdb_file`; `none` for a successful world). -/
def failureReason (chain_id : String) (w : JobWorld) : Option String :=
  match w with
  | .subprocessFail base msg => some ("Failed processing " ++ base ++ ": " ++ msg)
  | .xmlMalformed base msg => some ("Failed processing " ++ base ++ ": " ++ msg)
  | .xmlOk base rep =>
    if chain_id ∈ chainsOfReport rep then none
    else some ("Failed processing " ++ base ++ ": Requested chain '" ++ chain_id
               ++ "' not found")

/-- The batch of `pisa_final.py` `main` (lines 412-422): every job is
processed independently and contributes one result.  (`as_completed`
reorders only the collection; the multiset of rows is order-independent,
and each job's result is a function of its own world alone, which is what
this map expresses.) -/
noncomputable def runBatch (ws : List JobWorld) (chain_id : String)
    (residue_counter : Int) : List (Except String (Option String × FinalRow)) :=
  ws.map fun w => process_pdb_file w chain_id residue_counter

/-- Attribute access `elem.text` after a bare `find` in `pisa.py`: an absent
child element is a `None` result, and the subsequent attribute access (or
`int(None)`/comparison use) raises. -/
def textE (o : Option String) : Except String String :=
  match o with
  | some s => .ok s
  | none => .error "AttributeError: NoneType object has no attribute text"

/-- Parse of one `residue` element in `pisa.py` lines 181-186: every child
element is required (no defaults) and every numeric text must convert. -/
def pisaPyParseResidue (cid : String) (r : ResidueXML) : Except String Residue := do
  let name ← textE r.name
  let seq ← pyIntE (← textE r.seq_num)
  let asa ← pyFloatE (← textE r.asa)
  let bsa ← pyFloatE (← textE r.bsa)
  let solv ← pyFloatE (← textE r.solv_en)
  pure ⟨cid, name, seq, asa, bsa, solv⟩

/-- The molecule/residue loop of `pisa.py` lines 178-186 (chain text taken
raw, without strip). -/
def pisaPyParseResidues (ms : List MoleculeXML) : Except String (List Residue) :=
  ms.foldlM (fun acc m => do
    let cid ← textE m.chain_id
    m.residues.foldlM (fun acc2 r => do
      let res ← pisaPyParseResidue cid r
      pure (acc2 ++ [res])) acc) []

/-- One bond of a section in `pisa.py` lines 190-197 (and 200-207): the
guard `bond.find('chain-1').text == chain_id or bond.find('chain-2').text
== chain_id` evaluates the chain texts with Python short-circuiting, then
the sequence numbers are converted and the counter incremented once per
qualifying endpoint (the chain texts are read again inside the body). -/
def pisaPyCountBond (chain_id : String) (residue_counter : Int) (acc : Nat)
    (b : BondXML) : Except String Nat := do
  let c1 ← textE b.chain1
  let cond ←
    if c1 = chain_id then pure true
    else do
      let c2 ← textE b.chain2
      pure (decide (c2 = chain_id))
  if cond then do
    let s1 ← pyIntE (← textE b.seqnum1)
    let s2 ← pyIntE (← textE b.seqnum2)
    let c1b ← textE b.chain1
    let acc := if c1b = chain_id ∧ residue_counter ≤ s1 then acc + 1 else acc
    let c2b ← textE b.chain2
    let acc := if c2b = chain_id ∧ residue_counter ≤ s2 then acc + 1 else acc
    pure acc
  else
    pure acc

/-- The interface loop of `pisa.py` lines 188-207: `interface.find('h-bonds')`
and `interface.find('salt-bridges')` are dereferenced without a `None`
check, so an interface lacking either section raises. -/
def pisaPyCountAllBonds (rep : ReportXML) (chain_id : String)
    (residue_counter : Int) : Except String (Nat × Nat) :=
  rep.interfaces.foldlM (fun p i => do
    let hbs ← match i.hbonds with
      | some bs => pure bs
      | none => Except.error "AttributeError: NoneType object has no attribute findall"
    let hc ← hbs.foldlM (pisaPyCountBond chain_id residue_counter) p.1
    let sbs ← match i.saltBridges with
      | some bs => pure bs
      | none => Except.error "AttributeError: NoneType object has no attribute findall"
    let sc ← sbs.foldlM (pisaPyCountBond chain_id residue_counter) p.2
    pure (hc, sc)) ((0 : Nat), (0 : Nat))

/-- `parse_xml` of `pisa.py` (lines 151-209) on a well-formed document
(the `ET.ParseError` branch, returning `([], 0, 0)`, is modelled at the
call site).  Returns `(residues, h_bonds_count, salt_bridges_count)`. -/
def pisaPy_parse_xml (rep : ReportXML) (chain_id : String)
    (residue_counter : Int) : Except String (List Residue × Nat × Nat) := do
  let residues ← pisaPyParseResidues (allMolecules rep)
  let counts ← pisaPyCountAllBonds rep chain_id residue_counter
  pure (residues, counts.1, counts.2)

/-- `calculate_total_bsa` of `pisa.py` lines 231-250 (same arithmetic as
`calculate_total_bsa_score` of `pisa_final.py`). -/
def calculate_total_bsa (residues : List Residue) (chain_id : String)
    (residue_counter : Int) : Int :=
  residues.foldl (fun acc r =>
    if r.chain_id = chain_id ∧ residue_counter ≤ r.seq_num ∧ r.asa ≠ 0 then
      acc + pyTrunc (r.bsa / r.asa * 100 / 10)
    else acc) 0

/-- External-world outcome of one `pisa.py` job. -/
inductive PyJobWorld where
  /-- A subprocess exited non-zero: caught, `(base, 0, 0, 0)` returned. -/
  | subprocessFail (base : String)
  /-- The emitted report is not well-formed: `parse_xml` returns
  `([], 0, 0)`. -/
  | malformedXml (base : String)
  /-- The report parsed to `rep`. -/
  | xmlOk (base : String) (rep : ReportXML)
deriving DecidableEq

/-- `process_pdb_file` of `pisa.py` (lines 252-291).  Its docstring and
line 291 fix the result order:
`(base_filename, total_bsa_score, h_bonds_count, salt_bridges_count)`. -/
def pisaPy_process_pdb_file (w : PyJobWorld) (chain_id : String)
    (residue_counter : Int) : Except String (String × Int × Nat × Nat) :=
  match w with
  | .subprocessFail base => .ok (base, 0, 0, 0)
  | .malformedXml base => .ok (base, 0, 0, 0)
  | .xmlOk base rep =>
    match pisaPy_parse_xml rep chain_id residue_counter with
    | .error e => .error e
    | .ok (residues, h_bonds_count, salt_bridges_count) =>
      .ok (base, calculate_total_bsa residues chain_id residue_counter,
           h_bonds_count, salt_bridges_count)

/-- One row of the `pisa.py` `contacts.csv`, named by its header
`binder,bsa_score,salt_bridges,h_bonds` (line 374). -/
structure ContactsRow where
  binder : String
  bsa_score : Int
  salt_bridges : Nat
  h_bonds : Nat
deriving DecidableEq

/-- The row written by `pisa.py` `main` lines 375-377: the tuple from
`process_pdb_file` is unpacked as
`base_filename, total_bsa_score, salt_bridges_count, h_bonds_count = result`
— i.e. the third component (which `process_pdb_file` produced as the
hydrogen-bond count) is written under the `salt_bridges` header and the
fourth (the salt-bridge count) under `h_bonds`. -/
def pisaPy_main_row (result : String × Int × Nat × Nat) : ContactsRow :=
  { binder := result.1
    bsa_score := result.2.1
    salt_bridges := result.2.2.1
    h_bonds := result.2.2.2 }

/-- End-to-end `pisa.py` row for one job: `main` appends the row only when
`future.result()` did not raise (lines 338-347). -/
def pisaPy_contacts_row (w : PyJobWorld) (chain_id : String)
    (residue_counter : Int) : Option ContactsRow :=
  (pisaPy_process_pdb_file w chain_id residue_counter).toOption.map pisaPy_main_row

/-- A row entering the ranking step of `rank_pisa_final.py` (line 108):
`binder` identifier, the composite `score` computed on lines 102-105, and
the derived `overlap_flag` of line 81.  (The score pipeline feeding this
field is out of scope of the ordering claims; the sort consults only
`score`.) -/
structure RankRow where
  binder : String
  score : ℚ
  overlap_flag : Bool
deriving DecidableEq

/-- Order used by `df.sort_values("score", ascending=False)`: row `a` may
precede row `b` exactly when `b.score ≤ a.score`. -/
def rankDesc (a b : RankRow) : Prop := b.score ≤ a.score

instance : DecidableRel rankDesc :=
  fun a b => inferInstanceAs (Decidable (b.score ≤ a.score))

instance : IsTotal RankRow rankDesc :=
  ⟨fun a b => le_total b.score a.score⟩

instance : IsTrans RankRow rankDesc :=
  ⟨fun _ _ _ hab hbc => le_trans hbc hab⟩

/-- `ranked_all` of `rank_pisa_final.py` line 108: the table sorted by
`score` descending and nothing else — no secondary key is passed to
`sort_values`.  The sort is modelled as a stable sort (for rows with equal
scores numpy's sort on such small runs keeps input order; the essential
point, that `binder` is never consulted, holds for any model). -/
def ranked_all (rows : List RankRow) : List RankRow :=
  rows.insertionSort rankDesc

/-- `ranked_no_overlap` of `rank_pisa_final.py` line 111: the rows of the
full ranking whose overlap flag is unset, in ranking order. -/
def ranked_no_overlap (rows : List RankRow) : List RankRow :=
  (ranked_all rows).filter fun r => !r.overlap_flag

/-- Strict lexicographic order on character lists (by code point). -/
def charListLt : List Char → List Char → Bool
  | [], [] => false
  | [], _ :: _ => true
  | _ :: _, [] => false
  | a :: as, b :: bs =>
    if a.toNat < b.toNat then true
    else if b.toNat < a.toNat then false
    else charListLt as bs

/-- Strict lexicographic order on structure identifiers. -/
def binderLt (s t : String) : Bool := charListLt s.data t.data

/-- The ordering property asserted by the claim: any two rows of the
output with exactly equal final scores appear in ascending lexicographic
order of their `binder` field. -/
def tiesAscendingByBinder (l : List RankRow) : Prop :=
  l.Pairwise fun a b => a.score = b.score → binderLt a.binder b.binder = true ∨ a.binder = b.binder

instance : DecidablePred tiesAscendingByBinder := fun l =>
  List.instDecidablePairwise l

/-- `calculate_optimal_settings` of `compute.py` (lines 58-66): the batch
size is `int(total_memory_gb * 1024 * 0.8 / 100)` — computed from its
`total_memory_gb` argument, despite the comment "based on available
memory"; `read_speed`/`write_speed` are ignored and omitted here. -/
def calculate_optimal_settings (physical_cores : Nat) (total_memory_gb : ℚ) :
    Nat × Int :=
  (physical_cores, pyTrunc (total_memory_gb * 1024 * (0.8 : ℚ) / 100))

/-- `main` of `compute.py` lines 83-94: both memory figures are gathered,
and `calculate_optimal_settings` is called with `total_memory_gb` — the
available-memory figure is never passed to it. -/
def compute_main_settings (total_memory_gb available_memory_gb : ℚ)
    (physical_cores : Nat) : Nat × Int :=
  calculate_optimal_settings physical_cores total_memory_gb

/-- Batch size following the specification text: `floor(available_MB * 0.8
/ footprint_MB)` with a 100 MB footprint, a function of available memory.
Stated from the spec's words for comparison with the source definition. -/
def batchSizeOfSpec (available_MB : ℚ) : Int :=
  ⌊available_MB * (0.8 : ℚ) / 100⌋

deriving instance DecidableEq for Except

/-- A residue entry has an unparsable numeric field (its `int`/`float`
conversion in `pisa_final.py` lines 179-182 would raise). -/
def residueParseFails (r : ResidueXML) : Prop :=
  pyInt? (orZero (textD r.seq_num "0")) = none
  ∨ pyFloat? (orZero (textD r.asa "0")) = none
  ∨ pyFloat? (orZero (textD r.bsa "0")) = none
  ∨ pyFloat? (orZero (textD r.solv_en "0")) = none

instance : DecidablePred residueParseFails := fun r =>
  inferInstanceAs (Decidable (_ ∨ _ ∨ _ ∨ _))

/-- Number of endpoints of a bond lying on the target chain with sequence
number at or above the floor (the per-endpoint counting unit the claims
describe; sequence numbers that would fail to parse are irrelevant here,
they are only consulted when the owning chain matches). -/
def bondQualEndpoints (chain_id : String) (residue_counter : Int) (b : BondXML) : Nat :=
  (if bondChain1 b = chain_id ∧ residue_counter ≤ (bondSeq1? b).getD 0 then 1 else 0)
  + (if bondChain2 b = chain_id ∧ residue_counter ≤ (bondSeq2? b).getD 0 then 1 else 0)

/-- Total hydrogen-bond count predicted per-endpoint over the whole
document. -/
def hbondsQualSum (rep : ReportXML) (chain_id : String) (residue_counter : Int) : Nat :=
  (rep.interfaces.map fun i =>
    ((i.hbonds.getD []).map (bondQualEndpoints chain_id residue_counter)).sum).sum

/-- Total salt-bridge count predicted per-endpoint over the whole document. -/
def saltQualSum (rep : ReportXML) (chain_id : String) (residue_counter : Int) : Nat :=
  (rep.interfaces.map fun i =>
    ((i.saltBridges.getD []).map (bondQualEndpoints chain_id residue_counter)).sum).sum

/-- The qualifying interfaces of a document for a chain: those whose
participating-chain list contains the target chain. -/
def qualifyingInterfaces (rep : ReportXML) (chain_id : String) : List InterfaceXML :=
  rep.interfaces.filter fun i => chain_id ∈ chainsOfInterface i

/-- Parseable `int_area` values over the qualifying interfaces. -/
def areaContribs (rep : ReportXML) (chain_id : String) : List ℚ :=
  (qualifyingInterfaces rep chain_id).filterMap fun i => float_or_none i.int_area

/-- The data the best-interface selection carries for one candidate
interface: its parsed stabilization energy and the fields copied from it. -/
structure BestQuad where
  stab : ℚ
  solv : Option ℚ
  overlap : String
  pvalue : Option ℚ
deriving DecidableEq

/-- Candidate record of one interface: present exactly when its `stab_en`
parses. -/
def quadOf (i : InterfaceXML) : Option BestQuad :=
  (float_or_none i.stab_en).map fun s =>
    ⟨s, float_or_none i.int_solv_en, overlapOfInterface i, float_or_none i.pvalue⟩

/-- Candidate records of all qualifying interfaces, in document order. -/
def stabCandidates (rep : ReportXML) (chain_id : String) : List BestQuad :=
  (qualifyingInterfaces rep chain_id).filterMap quadOf

/-- Reference selection: the candidate with minimal stabilization energy,
the earliest in case of ties. -/
def selectBest : List BestQuad → Option BestQuad
  | [] => none
  | x :: xs =>
    match selectBest xs with
    | none => some x
    | some b => if x.stab ≤ b.stab then some x else some b

/-- One step of the loop's best-candidate update: adopt a new candidate
only when strictly more stabilizing than the current best. -/
def bestStep (b : Option BestQuad) (cand : Option BestQuad) : Option BestQuad :=
  match cand with
  | none => b
  | some q =>
    match b with
    | none => some q
    | some b0 => if q.stab < b0.stab then some q else some b0

/-- Fold `bestStep` over a candidate list. -/
def foldBest (b : Option BestQuad) (l : List BestQuad) : Option BestQuad :=
  l.foldl (fun acc q => bestStep acc (some q)) b

/-- The best-candidate view of a loop accumulator. -/
def accBest (acc : EnAcc) : Option BestQuad :=
  acc.best_stab.map fun s => ⟨s, acc.best_solv, (acc.best_overlap).getD "", acc.best_pvalue⟩

/-- Demo bond with exactly one endpoint on chain A. -/
def demoBondOneSide : BondXML := ⟨some "A", some "B", some "5", some "7"⟩

/-- Demo bond with both endpoints on chain A. -/
def demoBondBothSides : BondXML := ⟨some "A", some "A", some "5", some "6"⟩

/-- Demo molecule of chain A with no residues. -/
def demoMolA : MoleculeXML := ⟨some "A", []⟩

/-- Demo molecule of chain B with no residues. -/
def demoMolB : MoleculeXML := ⟨some "B", []⟩

/-- Demo interface carrying one hydrogen bond with a single qualifying
endpoint and one salt bridge with two qualifying endpoints. -/
def demoIfaceBonds : InterfaceXML :=
  ⟨[demoMolA, demoMolB], some [demoBondOneSide], some [demoBondBothSides],
   none, none, none, none, none⟩

/-- Demo report: one qualifying h-bond endpoint, two qualifying salt-bridge
endpoints on chain A. -/
def demoRepBonds : ReportXML := ⟨[demoIfaceBonds]⟩

/-- Demo residue element that parses. -/
def demoResOk : ResidueXML := ⟨some "GLY", some "3", some "100", some "50", some "1"⟩

/-- Demo residue element whose `seq_num` text is not an integer. -/
def demoResBad : ResidueXML := ⟨some "ALA", some "x", some "100", some "50", some "1"⟩

/-- Demo report containing a parsable residue entry followed by one with an
unparsable `seq_num`. -/
def demoRepBadEntry : ReportXML :=
  ⟨[⟨[⟨some "A", [demoResOk, demoResBad]⟩], none, none, none, none, none, none, none⟩]⟩

/-- Demo interface with energetics but no participating-chain data. -/
def demoIfaceNoChains : InterfaceXML :=
  ⟨[⟨some "", []⟩], none, none, some "50", some "-9", some "-1", some "No", some "1"⟩

/-- Demo interface on chain A with energetics fields. -/
def demoIfaceEnergetics : InterfaceXML :=
  ⟨[demoMolA, demoMolB], none, none, some "120", some "-3", some "-2", some "No", some "1"⟩

/-- Demo ranking rows with equal scores whose binders descend. -/
def demoRankRows : List RankRow := [⟨"b", 0, false⟩, ⟨"a", 0, false⟩]

/-- Demo residue with zero accessible surface area. -/
def demoResidueZeroAsa : Residue := ⟨"A", "GLY", 5, 0, 50, 0⟩

/-- Demo parsed residues: a hydrophobic and a polar interface residue of
chain A. -/
def demoResiduesComposition : List Residue :=
  [⟨"A", "GLY", 5, 10, 5, 0⟩, ⟨"A", "SER", 6, 10, 5, 0⟩]

/-! Theorems.  Each claim of the specification is settled below; helper
lemmas come first within each group. -/

/-- C5: the claim states that `batchSize` is computed from the host's
*available* memory as `floor(available_MB * 0.8 / footprint_MB)`.  The
source contradicts this (and its own comment "based on available
memory"): `main` passes `total_memory_gb` into
`calculate_optimal_settings`, so the batch size is a function of total
memory and is independent of available memory.  At total = 8 GB,
available = 4 GB the code yields 65 while the specified formula yields
`floor(4096 * 0.8 / 100) = 32`. -/
theorem batchSize_computed_from_total_memory :
    (∀ total avail avail' : ℚ, ∀ pc : Nat,
      compute_main_settings total avail pc = compute_main_settings total avail' pc)
    ∧ (compute_main_settings 8 4 4).2 = 65
    ∧ batchSizeOfSpec (4 * 1024) = 32
    ∧ (65 : Int) ≠ 32 := by
  refine ⟨fun total avail avail' pc => rfl, ?_, ?_, by norm_num⟩
  · show pyTrunc (8 * 1024 * (0.8 : ℚ) / 100) = 65
    rw [pyTrunc, if_pos (by norm_num)]
    norm_num
  · rw [batchSizeOfSpec]
    norm_num

/-- C2: the claim states that each bond count is written under the column
named for it.  `pisa_final.py` does so, but `pisa.py` swaps them: its
`process_pdb_file` returns `(base, bsa, h_bonds_count,
salt_bridges_count)` (as its docstring records) while `main` unpacks the
tuple as `(base, bsa, salt_bridges_count, h_bonds_count)`, so the
hydrogen-bond count lands under `salt_bridges` and vice versa.  On a
report with one qualifying h-bond endpoint and two qualifying salt-bridge
endpoints, the parser returns counts `(h, s) = (1, 2)` but the written
row is `salt_bridges = 1, h_bonds = 2`. -/
theorem pisaPy_contacts_row_swaps_bond_counts :
    pisaPy_parse_xml demoRepBonds "A" 0 = .ok ([], 1, 2)
    ∧ pisaPy_contacts_row (.xmlOk "b1" demoRepBonds) "A" 0 =
        some { binder := "b1", bsa_score := 0, salt_bridges := 1, h_bonds := 2 } := by
  constructor
  · decide
  · decide

/-- C1 counterexample: on a table of two rows with equal composite scores
and binders `"b"`, `"a"` (in that input order), the full ranking keeps
`"b"` before `"a"`: `sort_values("score", ascending=False)` uses no
secondary key, so equal-score rows are not in ascending binder order. -/
theorem ranked_all_ties_not_ascending :
    ¬ tiesAscendingByBinder (ranked_all demoRankRows) := by
  decide

/-- C3 counterexample: a report whose second residue entry has the
unparsable sequence number `"x"` makes the whole parse raise
(`Except.error`), rather than skipping that entry and returning the first
one. -/
theorem parse_residues_bad_entry_raises :
    parse_xml_residues_and_bonds demoRepBadEntry "A" 0 =
      Except.error "invalid literal for int: x" := by
  decide

/-- C1 amended: both ranked tables are ordered descending by the final
composite score; no tie-break key is applied, so equal-score rows simply
retain the order the sort leaves them in, and the non-overlap ranking is
the subsequence of the full ranking obtained by dropping overlap rows
(hence it handles ties the same way).  Each table is a permutation of its
input rows. -/
theorem ranked_tables_sorted_descending :
    ∀ rows : List RankRow,
      (ranked_all rows).Sorted rankDesc
      ∧ (ranked_all rows).Perm rows
      ∧ (ranked_no_overlap rows).Sorted rankDesc
      ∧ (ranked_no_overlap rows).Sublist (ranked_all rows)
      ∧ (ranked_no_overlap rows).Perm (rows.filter fun r => !r.overlap_flag) := by
  intro rows
  refine ⟨List.sorted_insertionSort rankDesc rows, List.perm_insertionSort rankDesc rows,
    ?_, List.filter_sublist _, ?_⟩
  · exact (List.sorted_insertionSort rankDesc rows).filter _
  · exact (List.perm_insertionSort rankDesc rows).filter _

@[simp]
lemma exceptBind_error {α β : Type} (e : String) (k : α → Except String β) :
    (Except.error e >>= k) = Except.error e := rfl

@[simp]
lemma exceptBind_ok {α β : Type} (a : α) (k : α → Except String β) :
    (Except.ok a >>= k) = k a := rfl

lemma pyIntE_eq_error (s : String) (h : pyInt? s = none) :
    pyIntE s = Except.error ("invalid literal for int: " ++ s) := by
  simp [pyIntE, h]

lemma pyIntE_eq_ok (s : String) (v : Int) (h : pyInt? s = some v) :
    pyIntE s = Except.ok v := by
  simp [pyIntE, h]

lemma pyFloatE_eq_error (s : String) (h : pyFloat? s = none) :
    pyFloatE s = Except.error ("could not convert string to float: " ++ s) := by
  simp [pyFloatE, h]

lemma pyFloatE_eq_ok (s : String) (v : ℚ) (h : pyFloat? s = some v) :
    pyFloatE s = Except.ok v := by
  simp [pyFloatE, h]

lemma parseResidueFinal_error (r : ResidueXML) (h : residueParseFails r)
    (cid : String) : ∃ e, parseResidueFinal cid r = Except.error e := by
  rcases hseq : pyInt? (orZero (textD r.seq_num "0")) with _ | sv
  · exact ⟨"invalid literal for int: " ++ orZero (textD r.seq_num "0"),
      by simp [parseResidueFinal, pyIntE_eq_error _ hseq]⟩
  rcases hasa : pyFloat? (orZero (textD r.asa "0")) with _ | av
  · exact ⟨"could not convert string to float: " ++ orZero (textD r.asa "0"),
      by simp [parseResidueFinal, pyIntE_eq_ok _ _ hseq, pyFloatE_eq_error _ hasa]⟩
  rcases hbsa : pyFloat? (orZero (textD r.bsa "0")) with _ | bv
  · exact ⟨"could not convert string to float: " ++ orZero (textD r.bsa "0"),
      by simp [parseResidueFinal, pyIntE_eq_ok _ _ hseq, pyFloatE_eq_ok _ _ hasa,
        pyFloatE_eq_error _ hbsa]⟩
  rcases hsolv : pyFloat? (orZero (textD r.solv_en "0")) with _ | vv
  · exact ⟨"could not convert string to float: " ++ orZero (textD r.solv_en "0"),
      by simp [parseResidueFinal, pyIntE_eq_ok _ _ hseq, pyFloatE_eq_ok _ _ hasa,
        pyFloatE_eq_ok _ _ hbsa, pyFloatE_eq_error _ hsolv]⟩
  · exfalso
    rcases h with h | h | h | h <;> simp_all

lemma foldlM_error_uniform {α β : Type} (f : β → α → Except String β) (x : α)
    (hf : ∀ acc, ∃ e, f acc x = Except.error e) :
    ∀ l : List α, x ∈ l → ∀ init, ∃ e, l.foldlM f init = Except.error e := by
  intro l
  induction l with
  | nil => intro hx; cases hx
  | cons a as ih =>
    intro hx init
    rw [List.foldlM_cons]
    rcases List.mem_cons.mp hx with rfl | hmem
    · obtain ⟨e, he⟩ := hf init
      exact ⟨e, by rw [he]; rfl⟩
    · cases hfa : f init a with
      | error e => exact ⟨e, rfl⟩
      | ok acc2 =>
        obtain ⟨e, he⟩ := ih hmem acc2
        exact ⟨e, he⟩

lemma parseResiduesFinal_error (ms : List MoleculeXML) (m : MoleculeXML)
    (r : ResidueXML) (hm : m ∈ ms) (hr : r ∈ m.residues)
    (hfail : residueParseFails r) :
    ∃ e, parseResiduesFinal ms = Except.error e := by
  have hinner : ∀ acc, ∃ e,
      (m.residues.foldlM (fun acc2 rr => do
        let res ← parseResidueFinal (pyStrip (textD m.chain_id "")) rr
        pure (acc2 ++ [res])) acc) = Except.error e := by
    intro acc
    refine foldlM_error_uniform _ r (fun acc2 => ?_) m.residues hr acc
    obtain ⟨e, he⟩ := parseResidueFinal_error r hfail (pyStrip (textD m.chain_id ""))
    exact ⟨e, by rw [he]; rfl⟩
  exact foldlM_error_uniform _ m (fun acc => hinner acc) ms hm []

/-- C3 amended: an entry-level numeric parse failure is not tolerated: the
`int`/`float` conversions of `pisa_final.py` lines 179-182 are not wrapped
in any per-entry handler, so a residue entry with an unparsable numeric
field makes the whole parse raise and no entries are returned (only a
top-level XML well-formedness failure is caught, yielding the empty
result; missing or empty numeric fields are defaulted to `"0"`, not
skipped). -/
theorem parse_residues_entry_failure_aborts_parse :
    ∀ (rep : ReportXML) (chain_id : String) (residue_counter : Int)
      (m : MoleculeXML) (r : ResidueXML),
      m ∈ allMolecules rep → r ∈ m.residues → residueParseFails r →
      ∃ e, parse_xml_residues_and_bonds rep chain_id residue_counter =
        Except.error e := by
  intro rep chain_id residue_counter m r hm hr hfail
  obtain ⟨e, he⟩ := parseResiduesFinal_error (allMolecules rep) m r hm hr hfail
  exact ⟨e, by simp [parse_xml_residues_and_bonds, he]⟩

/-- C3 amended witness: the demo report with one parsable and one
unparsable residue entry satisfies the hypotheses, and its parse raises. -/
theorem parse_residues_entry_failure_aborts_parse_witness :
    (⟨some "A", [demoResOk, demoResBad]⟩ : MoleculeXML) ∈ allMolecules demoRepBadEntry
    ∧ demoResBad ∈ (⟨some "A", [demoResOk, demoResBad]⟩ : MoleculeXML).residues
    ∧ residueParseFails demoResBad
    ∧ ∃ e, parse_xml_residues_and_bonds demoRepBadEntry "A" 0 = Except.error e :=
  ⟨by decide, by decide, by decide,
   parse_residues_entry_failure_aborts_parse demoRepBadEntry "A" 0
     ⟨some "A", [demoResOk, demoResBad]⟩ demoResBad (by decide) (by decide) (by decide)⟩

/-- C4: each of the three per-job failure modes — subprocess non-zero
exit, malformed XML report, requested chain absent — is caught inside
`process_pdb_file`'s `try` block, so the job returns the zero/blank
metrics row together with a logged reason instead of raising; and the
batch maps every job independently, so a failing job leaves every sibling
job's result exactly what it would be with the failed job absent. -/
theorem batch_failure_isolated :
    ∀ (chain_id : String) (residue_counter : Int),
      (∀ w, isFailureWorld chain_id w →
        process_pdb_file w chain_id residue_counter =
          .ok (failureReason chain_id w, zeroRow (jobBase w))
        ∧ (failureReason chain_id w).isSome = true)
      ∧ (∀ pre post w,
          runBatch (pre ++ w :: post) chain_id residue_counter =
            runBatch pre chain_id residue_counter
            ++ process_pdb_file w chain_id residue_counter
              :: runBatch post chain_id residue_counter) := by
  intro chain_id residue_counter
  constructor
  · intro w hw
    cases w with
    | subprocessFail base msg => exact ⟨rfl, rfl⟩
    | xmlMalformed base msg => exact ⟨rfl, rfl⟩
    | xmlOk base rep =>
      have h : chain_id ∉ chainsOfReport rep := hw
      refine ⟨?_, ?_⟩
      · simp [process_pdb_file, failureReason, jobBase, h]
      · simp [failureReason, h]
  · intro pre post w
    simp [runBatch]

/-- C4 witness: a job whose analyzer invocation failed satisfies the
failure hypothesis and yields the zero row with its logged reason. -/
theorem batch_failure_isolated_witness :
    isFailureWorld "A" (.subprocessFail "x" "boom")
    ∧ process_pdb_file (.subprocessFail "x" "boom") "A" 0 =
        .ok (failureReason "A" (.subprocessFail "x" "boom"), zeroRow "x") :=
  ⟨by trivial, ((batch_failure_isolated "A" 0).1 (.subprocessFail "x" "boom") (by trivial)).1⟩

lemma neg_logb_thousandth : -(Real.logb 10 (((1 : ℚ)/1000 : ℚ) : ℝ)) = 3 := by
  have hq : (((1 : ℚ)/1000 : ℚ) : ℝ) = (1000 : ℝ)⁻¹ := by norm_num
  rw [hq, Real.logb_inv, neg_neg,
    show (1000 : ℝ) = 10 ^ (3 : ℕ) from by norm_num,
    Real.logb_pow, Real.logb_self_eq_one (by norm_num)]
  norm_num

/-- C7: the specificity field equals `-log10(p)` exactly when the best
interface's p-value is present and strictly positive (over the reals the
result is then automatically finite); it is blank — `none`, never zero —
when the p-value is missing, zero or negative; and p-value `0.001` gives
exactly `3`.  The last conjunct ties the guard to the pipeline: the sixth
output of `parse_interface_energetics_and_area` is the specificity of the
retained best-interface p-value. -/
theorem specificity_blank_unless_positive_pvalue :
    specificity_of none = none
    ∧ (∀ q : ℚ, q ≤ 0 → specificity_of (some q) = none)
    ∧ (∀ q : ℚ, 0 < q → specificity_of (some q) = some (-(Real.logb 10 (q : ℝ))))
    ∧ float_or_none (some "0.001") = some ((1 : ℚ)/1000)
    ∧ specificity_of (some ((1 : ℚ)/1000)) = some (3 : ℝ)
    ∧ (∀ rep chain_id, (parse_interface_energetics_and_area rep chain_id).2.2.2.2.2 =
        specificity_of (en_result rep chain_id).pvalue) := by
  refine ⟨rfl, ?_, ?_, ?_, ?_, fun rep chain_id => rfl⟩
  · intro q hq
    simp [specificity_of, not_lt.mpr hq]
  · intro q hq
    simp [specificity_of, hq]
  · rw [show float_or_none (some "0.001") =
        some ((digitsVal ['0'] : ℚ) + (digitsVal ['0', '0', '1'] : ℚ) / (10 ^ (3 : ℕ) : ℚ))
      from rfl]
    norm_num [digitsVal, show ('0'.toNat) = 48 from rfl, show ('1'.toNat) = 49 from rfl]
  · rw [show specificity_of (some ((1 : ℚ)/1000)) =
        some (-(Real.logb 10 (((1 : ℚ)/1000 : ℚ) : ℝ))) from by
      simp [specificity_of]]
    rw [neg_logb_thousandth]

/-- C7 witness: the zero p-value case is blank and a positive p-value case
is `-log10`. -/
theorem specificity_blank_unless_positive_pvalue_witness :
    specificity_of (some (0 : ℚ)) = none
    ∧ specificity_of (some (2 : ℚ)) = some (-(Real.logb 10 ((2 : ℚ) : ℝ))) :=
  ⟨specificity_blank_unless_positive_pvalue.2.1 0 le_rfl,
   specificity_blank_unless_positive_pvalue.2.2.1 2 (by norm_num)⟩

lemma bsa_foldl_characterization (chain_id : String) (residue_counter : Int) :
    ∀ (rs : List Residue) (a : Int),
      rs.foldl (fun acc r =>
        if r.chain_id = chain_id ∧ residue_counter ≤ r.seq_num ∧ r.asa ≠ 0 then
          acc + pyTrunc (r.bsa / r.asa * 100 / 10)
        else acc) a
      = a + ((rs.filter fun r =>
            r.chain_id = chain_id ∧ residue_counter ≤ r.seq_num ∧ r.asa ≠ 0).map
          fun r => pyTrunc (r.bsa / r.asa * 100 / 10)).sum := by
  intro rs
  induction rs with
  | nil => intro a; simp
  | cons r rest ih =>
    intro a
    by_cases hp : r.chain_id = chain_id ∧ residue_counter ≤ r.seq_num ∧ r.asa ≠ 0
    · simp [List.foldl_cons, List.filter_cons, hp, ih]
      omega
    · simp [List.foldl_cons, List.filter_cons, hp, ih]

/-- C9: the buried-area percentage is evaluated only under the `asa != 0`
guard, so a residue with ASA = 0 contributes exactly 0 (dropping it leaves
the score unchanged) and the score is the sum of `int(bsa/asa*100/10)`
over exactly the qualifying residues with nonzero ASA. -/
theorem bsa_score_guarded_against_zero_asa :
    (∀ (r : Residue) (rs : List Residue) (chain_id : String) (residue_counter : Int),
      r.asa = 0 →
      calculate_total_bsa_score (r :: rs) chain_id residue_counter =
        calculate_total_bsa_score rs chain_id residue_counter)
    ∧ (∀ (rs : List Residue) (chain_id : String) (residue_counter : Int),
      calculate_total_bsa_score rs chain_id residue_counter =
        ((rs.filter fun r =>
            r.chain_id = chain_id ∧ residue_counter ≤ r.seq_num ∧ r.asa ≠ 0).map
          fun r => pyTrunc (r.bsa / r.asa * 100 / 10)).sum) := by
  have hchar := bsa_foldl_characterization
  constructor
  · intro r rs chain_id residue_counter hasa
    have hp : ¬ (r.chain_id = chain_id ∧ residue_counter ≤ r.seq_num ∧ r.asa ≠ 0) := by
      rintro ⟨-, -, hne⟩
      exact hne hasa
    rw [calculate_total_bsa_score, calculate_total_bsa_score, List.foldl_cons, if_neg hp]
  · intro rs chain_id residue_counter
    simpa using hchar chain_id residue_counter rs 0

/-- C9 witness: a zero-ASA residue in front of an otherwise-scored list
changes nothing. -/
theorem bsa_score_guarded_against_zero_asa_witness :
    demoResidueZeroAsa.asa = 0
    ∧ calculate_total_bsa_score [demoResidueZeroAsa] "A" 0 =
        calculate_total_bsa_score [] "A" 0 :=
  ⟨rfl, bsa_score_guarded_against_zero_asa.1 demoResidueZeroAsa [] "A" 0 rfl⟩

lemma hydrophobic_not_polar_or_charged :
    ∀ s : String, s ∈ HYDROPHOBIC → ¬ (s ∈ POLAR_UNCHARGED ∨ s ∈ CHARGED) := by
  intro s hs
  fin_cases hs <;> decide

lemma filter_disjoint_length_le {α : Type} (P Q : α → Prop) [DecidablePred P]
    [DecidablePred Q] (hdisj : ∀ x, P x → ¬ Q x) :
    ∀ l : List α,
      (l.filter fun x => P x).length + (l.filter fun x => Q x).length ≤ l.length := by
  intro l
  induction l with
  | nil => simp
  | cons a t ih =>
    by_cases hP : P a
    · have hQ : ¬ Q a := hdisj a hP
      simp [List.filter_cons, hP, hQ]
      omega
    · by_cases hQ : Q a <;> simp [List.filter_cons, hP, hQ] <;> omega

lemma stats_of_pos (residues : List Residue) (chain_id : String)
    (residue_counter : Int)
    (h0 : (residues.filterMap fun r =>
      if r.chain_id = chain_id ∧ residue_counter ≤ r.seq_num ∧ 0 < r.bsa then
        some (pyUpper (pyStrip r.name))
      else none).length ≠ 0) :
    compute_interface_residue_stats residues chain_id residue_counter =
      (let iface := residues.filterMap fun r =>
        if r.chain_id = chain_id ∧ residue_counter ≤ r.seq_num ∧ 0 < r.bsa then
          some (pyUpper (pyStrip r.name))
        else none
      (iface.length,
       some (100 * ((iface.filter fun s => s ∈ POLAR_UNCHARGED ∨ s ∈ CHARGED).length : ℚ)
         / (iface.length : ℚ)),
       some (100 * ((iface.filter fun s => s ∈ HYDROPHOBIC).length : ℚ)
         / (iface.length : ℚ)))) := by
  simp only [compute_interface_residue_stats]
  rw [if_neg h0]

/-- C10: the hydrophobic and polar-or-charged residue classes are
disjoint, so whenever the composition fields are non-blank (some residue
qualifies) both percentages exist, lie in `[0, 100]`, and sum to at most
100. -/
theorem composition_percentages_bounded :
    ∀ (residues : List Residue) (chain_id : String) (residue_counter : Int),
      (compute_interface_residue_stats residues chain_id residue_counter).1 ≠ 0 →
      ∃ p h : ℚ,
        (compute_interface_residue_stats residues chain_id residue_counter).2.1 = some p
        ∧ (compute_interface_residue_stats residues chain_id residue_counter).2.2 = some h
        ∧ 0 ≤ p ∧ p ≤ 100 ∧ 0 ≤ h ∧ h ≤ 100 ∧ p + h ≤ 100 := by
  intro residues chain_id residue_counter hn
  by_cases h0 : (residues.filterMap fun r =>
      if r.chain_id = chain_id ∧ residue_counter ≤ r.seq_num ∧ 0 < r.bsa then
        some (pyUpper (pyStrip r.name))
      else none).length = 0
  · exfalso
    apply hn
    simp [compute_interface_residue_stats, h0]
  · rw [stats_of_pos residues chain_id residue_counter h0]
    set iface := residues.filterMap fun r =>
      if r.chain_id = chain_id ∧ residue_counter ≤ r.seq_num ∧ 0 < r.bsa then
        some (pyUpper (pyStrip r.name))
      else none with hiface
    set polar := (iface.filter fun s => s ∈ POLAR_UNCHARGED ∨ s ∈ CHARGED).length with hpolar
    set hyd := (iface.filter fun s => s ∈ HYDROPHOBIC).length with hhyd
    have hnpos : 0 < iface.length := Nat.pos_of_ne_zero h0
    have hq : (0 : ℚ) < (iface.length : ℚ) := by exact_mod_cast hnpos
    have hsum_le : hyd + polar ≤ iface.length := by
      rw [hhyd, hpolar]
      exact filter_disjoint_length_le (fun s => s ∈ HYDROPHOBIC)
        (fun s => s ∈ POLAR_UNCHARGED ∨ s ∈ CHARGED)
        hydrophobic_not_polar_or_charged iface
    have hpolar_le : polar ≤ iface.length := by
      rw [hpolar]
      exact (List.length_filter_le _ _)
    have hhyd_le : hyd ≤ iface.length := by
      rw [hhyd]
      exact (List.length_filter_le _ _)
    refine ⟨_, _, rfl, rfl, ?_, ?_, ?_, ?_, ?_⟩
    · positivity
    · rw [div_le_iff₀ hq]
      have : (polar : ℚ) ≤ (iface.length : ℚ) := by exact_mod_cast hpolar_le
      nlinarith
    · positivity
    · rw [div_le_iff₀ hq]
      have : (hyd : ℚ) ≤ (iface.length : ℚ) := by exact_mod_cast hhyd_le
      nlinarith
    · rw [div_add_div_same, div_le_iff₀ hq]
      have : (hyd : ℚ) + (polar : ℚ) ≤ (iface.length : ℚ) := by exact_mod_cast hsum_le
      nlinarith

/-- C10 witness: one hydrophobic and one polar interface residue on chain
A give non-blank, bounded percentages. -/
theorem composition_percentages_bounded_witness :
    (compute_interface_residue_stats demoResiduesComposition "A" 0).1 ≠ 0
    ∧ ∃ p h : ℚ,
        (compute_interface_residue_stats demoResiduesComposition "A" 0).2.1 = some p
        ∧ (compute_interface_residue_stats demoResiduesComposition "A" 0).2.2 = some h
        ∧ 0 ≤ p ∧ p ≤ 100 ∧ 0 ≤ h ∧ h ≤ 100 ∧ p + h ≤ 100 :=
  ⟨by decide, composition_percentages_bounded demoResiduesComposition "A" 0 (by decide)⟩

@[simp]
lemma exceptPure_eq_ok {α : Type} (a : α) : (pure a : Except String α) = Except.ok a := rfl

lemma countBondFinal_ok_eq (chain_id : String) (residue_counter : Int)
    (b : BondXML) (k : Nat) (h : countBondFinal chain_id residue_counter b = .ok k) :
    k = bondQualEndpoints chain_id residue_counter b := by
  by_cases hg : bondChain1 b = chain_id ∨ bondChain2 b = chain_id
  · rcases h1 : pyInt? (orZero (textD b.seqnum1 "0")) with _ | s1
    · rw [countBondFinal, if_pos hg] at h
      simp [pyIntE_eq_error _ h1] at h
    · rcases h2 : pyInt? (orZero (textD b.seqnum2 "0")) with _ | s2
      · rw [countBondFinal, if_pos hg] at h
        simp [pyIntE_eq_ok _ _ h1, pyIntE_eq_error _ h2] at h
      · rw [countBondFinal, if_pos hg] at h
        simp only [pyIntE_eq_ok _ _ h1, pyIntE_eq_ok _ _ h2, exceptBind_ok,
          exceptPure_eq_ok, Except.ok.injEq] at h
        rw [bondQualEndpoints, bondSeq1?, bondSeq2?, h1, h2, ← h]
        split_ifs <;> simp_all <;> omega
  · rw [countBondFinal, if_neg hg] at h
    simp only [exceptPure_eq_ok, Except.ok.injEq] at h
    push_neg at hg
    simp [bondQualEndpoints, hg.1, hg.2, ← h]

lemma countBondsFinal_ok_eq (chain_id : String) (residue_counter : Int) :
    ∀ (bs : List BondXML) (n m : Nat),
      countBondsFinal chain_id residue_counter bs n = .ok m →
      m = n + (bs.map (bondQualEndpoints chain_id residue_counter)).sum := by
  intro bs
  induction bs with
  | nil =>
    intro n m h
    simp only [countBondsFinal, List.foldlM_nil, exceptPure_eq_ok, Except.ok.injEq] at h
    simp [← h]
  | cons b rest ih =>
    intro n m h
    rw [countBondsFinal, List.foldlM_cons] at h
    rcases hcb : countBondFinal chain_id residue_counter b with e | k
    · rw [hcb] at h
      simp at h
    · rw [hcb] at h
      simp only [exceptBind_ok, exceptPure_eq_ok] at h
      have hm := ih (n + k) m h
      have hk := countBondFinal_ok_eq chain_id residue_counter b k hcb
      simp only [List.map_cons, List.sum_cons]
      omega

lemma countAllBondsFinal_foldl_ok (chain_id : String) (residue_counter : Int) :
    ∀ (l : List InterfaceXML) (p res : Nat × Nat),
      (l.foldlM (fun p i => do
        let hc ← match i.hbonds with
          | some bs => countBondsFinal chain_id residue_counter bs p.1
          | none => pure p.1
        let sc ← match i.saltBridges with
          | some bs => countBondsFinal chain_id residue_counter bs p.2
          | none => pure p.2
        pure (hc, sc)) p) = .ok res →
      res.1 = p.1 + (l.map fun i =>
          ((i.hbonds.getD []).map (bondQualEndpoints chain_id residue_counter)).sum).sum
      ∧ res.2 = p.2 + (l.map fun i =>
          ((i.saltBridges.getD []).map (bondQualEndpoints chain_id residue_counter)).sum).sum := by
  intro l
  induction l with
  | nil =>
    intro p res h
    simp only [List.foldlM_nil, exceptPure_eq_ok, Except.ok.injEq] at h
    simp [← h]
  | cons i rest ih =>
    intro p res h
    rw [List.foldlM_cons] at h
    rcases hhb : i.hbonds with _ | hbs
    all_goals rcases hsb : i.saltBridges with _ | sbs
    · simp only [hhb, hsb, exceptBind_ok, exceptPure_eq_ok] at h
      have := ih (p.1, p.2) res h
      simpa [hhb, hsb] using this
    · simp only [hhb, hsb, exceptBind_ok, exceptPure_eq_ok] at h
      rcases hcs : countBondsFinal chain_id residue_counter sbs p.2 with e | sc
      · rw [hcs] at h
        simp at h
      · rw [hcs] at h
        simp only [exceptBind_ok, exceptPure_eq_ok] at h
        have hrec := ih (p.1, sc) res h
        have hsc := countBondsFinal_ok_eq chain_id residue_counter sbs p.2 sc hcs
        simp only [hhb, hsb, List.map_cons, List.sum_cons, Option.getD_some,
          Option.getD_none, List.map_nil, List.sum_nil] at hrec ⊢
        omega
    · simp only [hhb, hsb, exceptBind_ok, exceptPure_eq_ok] at h
      rcases hch : countBondsFinal chain_id residue_counter hbs p.1 with e | hc
      · rw [hch] at h
        simp at h
      · rw [hch] at h
        simp only [exceptBind_ok, exceptPure_eq_ok] at h
        have hrec := ih (hc, p.2) res h
        have hhc := countBondsFinal_ok_eq chain_id residue_counter hbs p.1 hc hch
        simp only [hhb, hsb, List.map_cons, List.sum_cons, Option.getD_some,
          Option.getD_none, List.map_nil, List.sum_nil] at hrec ⊢
        omega
    · simp only [hhb, hsb, exceptBind_ok, exceptPure_eq_ok] at h
      rcases hch : countBondsFinal chain_id residue_counter hbs p.1 with e | hc
      · rw [hch] at h
        simp at h
      · rw [hch] at h
        simp only [exceptBind_ok, exceptPure_eq_ok] at h
        rcases hcs : countBondsFinal chain_id residue_counter sbs p.2 with e | sc
        · rw [hcs] at h
          simp at h
        · rw [hcs] at h
          simp only [exceptBind_ok, exceptPure_eq_ok] at h
          have hrec := ih (hc, sc) res h
          have hhc := countBondsFinal_ok_eq chain_id residue_counter hbs p.1 hc hch
          have hsc := countBondsFinal_ok_eq chain_id residue_counter sbs p.2 sc hcs
          simp only [hhb, hsb, List.map_cons, List.sum_cons, Option.getD_some,
            Option.getD_none, List.map_nil, List.sum_nil] at hrec ⊢
          omega

/-- C8: bond counting is per-endpoint for both sections independently —
whenever the parse succeeds, the hydrogen-bond counter equals the sum over
all `h-bonds` bonds of the number of endpoints on the target chain at or
above the floor, and likewise for salt bridges; a bond with both
endpoints qualifying contributes exactly 2, and one with exactly one
qualifying endpoint contributes exactly 1 (whichever side it is). -/
theorem bond_counts_once_per_qualifying_endpoint :
    (∀ (rep : ReportXML) (chain_id : String) (residue_counter : Int)
       (res : List Residue) (h s : Nat),
      parse_xml_residues_and_bonds rep chain_id residue_counter = .ok (res, h, s) →
      h = hbondsQualSum rep chain_id residue_counter
      ∧ s = saltQualSum rep chain_id residue_counter)
    ∧ (∀ (chain_id : String) (residue_counter : Int) (b : BondXML) (s1 s2 : Int),
      bondSeq1? b = some s1 → bondSeq2? b = some s2 →
      bondChain1 b = chain_id → residue_counter ≤ s1 →
      bondChain2 b = chain_id → residue_counter ≤ s2 →
      countBondFinal chain_id residue_counter b = .ok 2)
    ∧ (∀ (chain_id : String) (residue_counter : Int) (b : BondXML) (s1 s2 : Int),
      bondSeq1? b = some s1 → bondSeq2? b = some s2 →
      bondChain1 b = chain_id → residue_counter ≤ s1 →
      ¬ (bondChain2 b = chain_id ∧ residue_counter ≤ s2) →
      countBondFinal chain_id residue_counter b = .ok 1)
    ∧ (∀ (chain_id : String) (residue_counter : Int) (b : BondXML) (s1 s2 : Int),
      bondSeq1? b = some s1 → bondSeq2? b = some s2 →
      ¬ (bondChain1 b = chain_id ∧ residue_counter ≤ s1) →
      bondChain2 b = chain_id → residue_counter ≤ s2 →
      countBondFinal chain_id residue_counter b = .ok 1) := by
  refine ⟨?_, ?_, ?_, ?_⟩
  · intro rep chain_id residue_counter res h s hok
    rw [parse_xml_residues_and_bonds] at hok
    rcases hres : parseResiduesFinal (allMolecules rep) with e | residues
    · rw [hres] at hok
      simp at hok
    · rw [hres] at hok
      simp only [exceptBind_ok] at hok
      rcases hcnt : countAllBondsFinal rep chain_id residue_counter with e | counts
      · rw [hcnt] at hok
        simp at hok
      · rw [hcnt] at hok
        simp only [exceptBind_ok, exceptPure_eq_ok, Except.ok.injEq, Prod.mk.injEq] at hok
        obtain ⟨-, hh, hs⟩ := hok
        have := countAllBondsFinal_foldl_ok chain_id residue_counter
          rep.interfaces (0, 0) counts hcnt
        rw [hbondsQualSum, saltQualSum]
        constructor
        · rw [← hh]
          simpa using this.1
        · rw [← hs]
          simpa using this.2
  · intro chain_id residue_counter b s1 s2 h1 h2 hc1 hs1 hc2 hs2
    rw [bondSeq1?] at h1
    rw [bondSeq2?] at h2
    rw [countBondFinal, if_pos (Or.inl hc1)]
    simp [pyIntE_eq_ok _ _ h1, pyIntE_eq_ok _ _ h2, hc1, hc2, hs1, hs2]
  · intro chain_id residue_counter b s1 s2 h1 h2 hc1 hs1 hno
    rw [bondSeq1?] at h1
    rw [bondSeq2?] at h2
    rw [countBondFinal, if_pos (Or.inl hc1)]
    simp [pyIntE_eq_ok _ _ h1, pyIntE_eq_ok _ _ h2, hc1, hs1, hno]
  · intro chain_id residue_counter b s1 s2 h1 h2 hno hc2 hs2
    rw [bondSeq1?] at h1
    rw [bondSeq2?] at h2
    rw [countBondFinal, if_pos (Or.inr hc2)]
    simp [pyIntE_eq_ok _ _ h1, pyIntE_eq_ok _ _ h2, hc2, hs2, hno]

/-- C8 witness: a bond with both endpoints on chain A at qualifying
sequence numbers counts 2; the whole demo report parses with the
per-endpoint totals. -/
theorem bond_counts_once_per_qualifying_endpoint_witness :
    countBondFinal "A" 0 demoBondBothSides = .ok 2
    ∧ (1 = hbondsQualSum demoRepBonds "A" 0 ∧ 2 = saltQualSum demoRepBonds "A" 0) :=
  ⟨bond_counts_once_per_qualifying_endpoint.2.1 "A" 0 demoBondBothSides 5 6
    (by decide) (by decide) (by decide) (by decide) (by decide) (by decide),
   bond_counts_once_per_qualifying_endpoint.1 demoRepBonds "A" 0 [] 1 2 (by decide)⟩

lemma enStep_skip (chain_id : String) (acc : EnAcc) (i : InterfaceXML)
    (h : chain_id ∉ chainsOfInterface i) : enStep chain_id acc i = acc := by
  rw [enStep, if_neg h]

lemma enStep_count (chain_id : String) (acc : EnAcc) (i : InterfaceXML) :
    (enStep chain_id acc i).count =
      acc.count + (if chain_id ∈ chainsOfInterface i then 1 else 0) := by
  by_cases h : chain_id ∈ chainsOfInterface i
  · simp only [enStep, if_pos h, if_pos h]
    cases ha : float_or_none i.int_area <;>
      cases hs : float_or_none i.stab_en <;>
        cases hb : acc.best_stab <;>
          simp [ha, hs, hb] <;> split_ifs <;> rfl
  · simp [enStep_skip chain_id acc i h, if_neg h]

lemma enStep_area (chain_id : String) (acc : EnAcc) (i : InterfaceXML) :
    (enStep chain_id acc i).total_area =
      acc.total_area + (if chain_id ∈ chainsOfInterface i then
        (float_or_none i.int_area).getD 0 else 0) := by
  by_cases h : chain_id ∈ chainsOfInterface i
  · simp only [enStep, if_pos h]
    cases ha : float_or_none i.int_area <;>
      cases hs : float_or_none i.stab_en <;>
        cases hb : acc.best_stab <;>
          simp [ha, hs, hb, h] <;> split_ifs <;> rfl
  · simp [enStep_skip chain_id acc i h, if_neg h]

lemma enStep_have_area (chain_id : String) (acc : EnAcc) (i : InterfaceXML) :
    (enStep chain_id acc i).have_area =
      (acc.have_area || (decide (chain_id ∈ chainsOfInterface i)
        && (float_or_none i.int_area).isSome)) := by
  by_cases h : chain_id ∈ chainsOfInterface i
  · simp only [enStep, if_pos h]
    cases ha : float_or_none i.int_area <;>
      cases hs : float_or_none i.stab_en <;>
        cases hb : acc.best_stab <;>
          simp [ha, hs, hb, h] <;> split_ifs <;> rfl
  · simp [enStep_skip chain_id acc i h, h]

lemma enStep_best (chain_id : String) (acc : EnAcc) (i : InterfaceXML) :
    accBest (enStep chain_id acc i) =
      bestStep (accBest acc)
        (if chain_id ∈ chainsOfInterface i then quadOf i else none) := by
  by_cases h : chain_id ∈ chainsOfInterface i
  · simp only [enStep, if_pos h, if_pos h]
    cases ha : float_or_none i.int_area <;>
      cases hs : float_or_none i.stab_en <;>
        cases hb : acc.best_stab <;>
          simp [accBest, bestStep, quadOf, ha, hs, hb] <;>
            split_ifs <;> simp [accBest]
  · simp [enStep_skip chain_id acc i h, if_neg h, bestStep]

lemma enStep_none_inv (chain_id : String) (acc : EnAcc) (i : InterfaceXML)
    (hinv : acc.best_stab = none →
      acc.best_solv = none ∧ acc.best_overlap = none ∧ acc.best_pvalue = none) :
    (enStep chain_id acc i).best_stab = none →
      (enStep chain_id acc i).best_solv = none
      ∧ (enStep chain_id acc i).best_overlap = none
      ∧ (enStep chain_id acc i).best_pvalue = none := by
  by_cases h : chain_id ∈ chainsOfInterface i
  · simp only [enStep, if_pos h]
    cases hs : float_or_none i.stab_en with
    | none =>
      cases ha : float_or_none i.int_area <;> simp [ha, hs] <;> exact hinv
    | some s =>
      cases hb : acc.best_stab with
      | none => cases ha : float_or_none i.int_area <;> simp [ha, hs, hb]
      | some b0 =>
        cases ha : float_or_none i.int_area <;> simp [ha, hs, hb] <;>
          split_ifs <;> simp [hb]
  · rw [enStep_skip chain_id acc i h]
    exact hinv

lemma enFold_count (chain_id : String) :
    ∀ (l : List InterfaceXML) (acc : EnAcc),
      (l.foldl (enStep chain_id) acc).count =
        acc.count + (l.filter fun i => chain_id ∈ chainsOfInterface i).length := by
  intro l
  induction l with
  | nil => intro acc; simp
  | cons i rest ih =>
    intro acc
    by_cases h : chain_id ∈ chainsOfInterface i <;>
      simp [List.foldl_cons, List.filter_cons, h, ih, enStep_count, h] <;> omega

lemma enFold_area (chain_id : String) :
    ∀ (l : List InterfaceXML) (acc : EnAcc),
      (l.foldl (enStep chain_id) acc).total_area =
        acc.total_area +
          ((l.filter fun i => chain_id ∈ chainsOfInterface i).filterMap
            (fun i => float_or_none i.int_area)).sum := by
  intro l
  induction l with
  | nil => intro acc; simp
  | cons i rest ih =>
    intro acc
    by_cases h : chain_id ∈ chainsOfInterface i
    · cases ha : float_or_none i.int_area <;>
        simp [List.foldl_cons, List.filter_cons, h, ih, enStep_area, ha] <;> ring
    · simp [List.foldl_cons, List.filter_cons, h, ih, enStep_skip chain_id acc i h]

lemma enFold_have_area (chain_id : String) :
    ∀ (l : List InterfaceXML) (acc : EnAcc),
      (l.foldl (enStep chain_id) acc).have_area =
        (acc.have_area ||
          !((l.filter fun i => chain_id ∈ chainsOfInterface i).filterMap
            (fun i => float_or_none i.int_area)).isEmpty) := by
  intro l
  induction l with
  | nil => intro acc; simp
  | cons i rest ih =>
    intro acc
    by_cases h : chain_id ∈ chainsOfInterface i
    · cases ha : float_or_none i.int_area <;>
        simp [List.foldl_cons, List.filter_cons, h, ih, enStep_have_area, ha,
          Bool.or_assoc]
    · simp [List.foldl_cons, List.filter_cons, h, ih, enStep_skip chain_id acc i h]

lemma enFold_best (chain_id : String) :
    ∀ (l : List InterfaceXML) (acc : EnAcc),
      accBest (l.foldl (enStep chain_id) acc) =
        foldBest (accBest acc)
          ((l.filter fun i => chain_id ∈ chainsOfInterface i).filterMap quadOf) := by
  intro l
  induction l with
  | nil => intro acc; simp [foldBest]
  | cons i rest ih =>
    intro acc
    by_cases h : chain_id ∈ chainsOfInterface i
    · rw [List.foldl_cons, ih]
      cases hq : quadOf i with
      | none =>
        have : accBest (enStep chain_id acc i) = accBest acc := by
          rw [enStep_best, if_pos h, hq]
          rfl
        simp [List.filter_cons, h, hq, this]
      | some q =>
        have : accBest (enStep chain_id acc i) = bestStep (accBest acc) (some q) := by
          rw [enStep_best, if_pos h, hq]
        simp only [List.filter_cons, h, decide_eq_true_eq, if_pos, List.filterMap_cons,
          hq, this]
        rfl
    · rw [List.foldl_cons, enStep_skip chain_id acc i h, ih]
      simp [List.filter_cons, h]

lemma enFold_none_inv (chain_id : String) :
    ∀ (l : List InterfaceXML) (acc : EnAcc),
      (acc.best_stab = none →
        acc.best_solv = none ∧ acc.best_overlap = none ∧ acc.best_pvalue = none) →
      ((l.foldl (enStep chain_id) acc).best_stab = none →
        (l.foldl (enStep chain_id) acc).best_solv = none
        ∧ (l.foldl (enStep chain_id) acc).best_overlap = none
        ∧ (l.foldl (enStep chain_id) acc).best_pvalue = none) := by
  intro l
  induction l with
  | nil => intro acc h; exact h
  | cons i rest ih =>
    intro acc h
    rw [List.foldl_cons]
    exact ih (enStep chain_id acc i) (enStep_none_inv chain_id acc i h)

lemma selectBest_eq_none_iff (l : List BestQuad) : selectBest l = none ↔ l = [] := by
  cases l with
  | nil => simp [selectBest]
  | cons x xs =>
    simp only [selectBest]
    cases selectBest xs <;> simp <;> split_ifs <;> simp

lemma foldBest_eq_selectBest :
    ∀ (l : List BestQuad) (b : Option BestQuad),
      foldBest b l =
        match selectBest l with
        | none => b
        | some m => bestStep b (some m) := by
  intro l
  induction l with
  | nil => intro b; simp [foldBest, selectBest]
  | cons x xs ih =>
    intro b
    have hstep : foldBest b (x :: xs) = foldBest (bestStep b (some x)) xs := by
      simp [foldBest]
    rw [hstep, ih]
    cases hs : selectBest xs with
    | none => simp [selectBest, hs]
    | some m =>
      simp only [selectBest, hs]
      cases b with
      | none =>
        simp only [bestStep]
        split_ifs <;> first | rfl | (exfalso; linarith)
      | some b0 =>
        simp only [bestStep]
        split_ifs <;> simp only [bestStep] <;> split_ifs <;>
          first | rfl | (exfalso; linarith)

lemma selectBest_spec :
    ∀ (l : List BestQuad) (q : BestQuad), selectBest l = some q →
      ∃ l₁ l₂, l = l₁ ++ q :: l₂
        ∧ (∀ x ∈ l₁, q.stab < x.stab) ∧ (∀ x ∈ l₂, q.stab ≤ x.stab) := by
  intro l
  induction l with
  | nil => intro q hq; simp [selectBest] at hq
  | cons x xs ih =>
    intro q hq
    cases hs : selectBest xs with
    | none =>
      have hxs : xs = [] := (selectBest_eq_none_iff xs).mp hs
      subst hxs
      simp only [selectBest, hs, Option.some.injEq] at hq
      subst hq
      exact ⟨[], [], rfl, by simp, by simp⟩
    | some m =>
      obtain ⟨l₁, l₂, hsplit, hbefore, hafter⟩ := ih m hs
      have hmin : ∀ y ∈ xs, m.stab ≤ y.stab := by
        intro y hy
        rw [hsplit] at hy
        rcases List.mem_append.mp hy with hy1 | hy2
        · exact le_of_lt (hbefore y hy1)
        · rcases List.mem_cons.mp hy2 with rfl | hy3
          · exact le_refl _
          · exact hafter y hy3
      simp only [selectBest, hs] at hq
      split_ifs at hq with hxm
      · obtain rfl : x = q := by simpa using hq
        refine ⟨[], xs, rfl, by simp, ?_⟩
        intro y hy
        exact le_trans hxm (hmin y hy)
      · obtain rfl : m = q := by simpa using hq
        refine ⟨x :: l₁, l₂, by rw [hsplit]; rfl, ?_, hafter⟩
        intro y hy
        rcases List.mem_cons.mp hy with rfl | hy1
        · exact lt_of_not_le hxm
        · exact hbefore y hy1

lemma enCore_best (rep : ReportXML) (chain_id : String) :
    accBest (enCore rep chain_id) = selectBest (stabCandidates rep chain_id) := by
  rw [enCore, enFold_best]
  have h0 : accBest enInit = none := rfl
  rw [h0, foldBest_eq_selectBest]
  cases hs : selectBest ((rep.interfaces.filter fun i =>
      chain_id ∈ chainsOfInterface i).filterMap quadOf) <;>
    simp [stabCandidates, qualifyingInterfaces, hs, bestStep]

lemma enCore_none_fields (rep : ReportXML) (chain_id : String)
    (h : (enCore rep chain_id).best_stab = none) :
    (enCore rep chain_id).best_solv = none
    ∧ (enCore rep chain_id).best_overlap = none
    ∧ (enCore rep chain_id).best_pvalue = none := by
  rw [enCore] at *
  exact enFold_none_inv chain_id rep.interfaces enInit (fun _ => ⟨rfl, rfl, rfl⟩) h

/-- C6: over the interfaces whose participating-chain set contains the
target chain — and only those; an interface with no chain data is skipped
entirely — the interface count is the number of qualifying interfaces and
the reported area is the sum of every qualifying interface's parseable
`int_area` (blank only when none parses); the best interface is the
earliest candidate whose parsed stabilization energy is minimal (strictly
smaller than every earlier candidate's, no larger than every later one's),
and the stabilization energy, solvation gain, overlap flag and retained
p-value are all taken from that one interface. -/
theorem best_interface_selection_and_summed_area :
    ∀ (rep : ReportXML) (chain_id : String),
      (en_result rep chain_id).count = (qualifyingInterfaces rep chain_id).length
      ∧ (en_result rep chain_id).area =
          (if areaContribs rep chain_id = [] then none
           else some (areaContribs rep chain_id).sum)
      ∧ (stabCandidates rep chain_id = [] →
          (en_result rep chain_id).dg = none
          ∧ (en_result rep chain_id).solv = none
          ∧ (en_result rep chain_id).overlap = ""
          ∧ (en_result rep chain_id).pvalue = none)
      ∧ (∀ q, selectBest (stabCandidates rep chain_id) = some q →
          (en_result rep chain_id).dg = some q.stab
          ∧ (en_result rep chain_id).solv = q.solv
          ∧ (en_result rep chain_id).overlap = q.overlap
          ∧ (en_result rep chain_id).pvalue = q.pvalue
          ∧ ∃ l₁ l₂, stabCandidates rep chain_id = l₁ ++ q :: l₂
              ∧ (∀ x ∈ l₁, q.stab < x.stab) ∧ (∀ x ∈ l₂, q.stab ≤ x.stab))
      ∧ (∀ (i : InterfaceXML) (pre post : List InterfaceXML),
          chainsOfInterface i = [] →
          en_result ⟨pre ++ i :: post⟩ chain_id = en_result ⟨pre ++ post⟩ chain_id) := by
  intro rep chain_id
  refine ⟨?_, ?_, ?_, ?_, ?_⟩
  · show (enCore rep chain_id).count = _
    rw [enCore, enFold_count]
    simp [enInit, qualifyingInterfaces]
  · show (if (enCore rep chain_id).have_area then some (enCore rep chain_id).total_area
        else none) = _
    rw [enCore, enFold_have_area, enFold_area]
    have h0a : enInit.total_area = 0 := rfl
    have h0h : enInit.have_area = false := rfl
    rw [h0a, h0h]
    cases hca : (rep.interfaces.filter fun i =>
        chain_id ∈ chainsOfInterface i).filterMap (fun i => float_or_none i.int_area) with
    | nil => simp [areaContribs, qualifyingInterfaces, hca]
    | cons a rest => simp [areaContribs, qualifyingInterfaces, hca]
  · intro hempty
    have hsel : selectBest (stabCandidates rep chain_id) = none := by
      rw [hempty]
      rfl
    have hacc : accBest (enCore rep chain_id) = none := by
      rw [enCore_best, hsel]
    have hstab : (enCore rep chain_id).best_stab = none := by
      rcases hb : (enCore rep chain_id).best_stab with _ | v
      · rfl
      · rw [accBest, hb] at hacc
        simp at hacc
    obtain ⟨hsolv, hover, hpv⟩ := enCore_none_fields rep chain_id hstab
    refine ⟨hstab, hsolv, ?_, hpv⟩
    show (enCore rep chain_id).best_overlap.getD "" = ""
    rw [hover]
    rfl
  · intro q hsel
    have hacc : accBest (enCore rep chain_id) = some q := by
      rw [enCore_best, hsel]
    rw [accBest] at hacc
    rcases hb : (enCore rep chain_id).best_stab with _ | s
    · rw [hb] at hacc
      simp at hacc
    · rw [hb] at hacc
      simp only [Option.map_some', Option.some.injEq] at hacc
      refine ⟨?_, ?_, ?_, ?_, selectBest_spec _ q hsel⟩
      · show (enCore rep chain_id).best_stab = some q.stab
        rw [hb, ← hacc]
      · show (enCore rep chain_id).best_solv = q.solv
        rw [← hacc]
      · show (enCore rep chain_id).best_overlap.getD "" = q.overlap
        rw [← hacc]
      · show (enCore rep chain_id).best_pvalue = q.pvalue
        rw [← hacc]
  · intro i pre post h
    have hnotin : chain_id ∉ chainsOfInterface i := by
      rw [h]
      exact List.not_mem_nil _
    have hcore : enCore ⟨pre ++ i :: post⟩ chain_id = enCore ⟨pre ++ post⟩ chain_id := by
      show (pre ++ i :: post).foldl (enStep chain_id) enInit =
        (pre ++ post).foldl (enStep chain_id) enInit
      rw [List.foldl_append, List.foldl_append, List.foldl_cons,
        enStep_skip chain_id _ i hnotin]
    rw [en_result, en_result, hcore]

/-- C6 witness: an interface with no participating-chain data is skipped
entirely — removing it from a demo document leaves the energetics result
unchanged. -/
theorem best_interface_selection_and_summed_area_witness :
    chainsOfInterface demoIfaceNoChains = []
    ∧ en_result ⟨[demoIfaceNoChains, demoIfaceEnergetics]⟩ "A" =
        en_result ⟨[demoIfaceEnergetics]⟩ "A" :=
  ⟨by decide,
   (best_interface_selection_and_summed_area
      ⟨[demoIfaceNoChains, demoIfaceEnergetics]⟩ "A").2.2.2.2
     demoIfaceNoChains [] [demoIfaceEnergetics] (by decide)⟩
